import Mathlib

/-!
# Verification of the Hokm game engine (`src/bot.py`)

This file gives a shallow embedding of the game-engine part of `bot.py`
(the `Card`/`Player`/`Round`/`Game` classes and the `/leave` command's
removal logic) and proves the specification claims about it.

Modelling conventions:
* Python `dict[int, Card]` (insertion ordered) is an association list
  `List (Nat × Card)`; assignment `d[k] = v` updates the first entry with
  key `k` in place, otherwise appends (`dictInsert`).
* `random.shuffle` is modelled by an explicit function parameter; theorems
  that need it to be a real shuffle assume the output is a permutation of
  the input.
* A Python method that mutates `self` becomes a function `Game → ... → Game × result`.
* Error message strings are replaced by constructors of `PlayErr`; the
  `SuitViolation` message, which in the source interpolates the list of
  legal cards into the text, carries that list as data.
* Code paths where the Python source would raise an uncaught exception
  (`turn_order.index` on a missing value, dictionary lookups on malformed
  rounds) are represented by the `runtimeError` result; the state mutations
  performed before the raise are kept, as in Python.
-/

/-- The four suits (`class Suit(Enum)` in the source). -/
inductive Suit where
  | hearts
  | diamonds
  | clubs
  | spades
deriving DecidableEq

/-- Code point of the first character of the suit's emoji value string
(`"♥️" "♦️" "♣️" "♠️"`); `player.cards.sort` in the source orders by this
string, which compares by this leading code point. -/
def Suit.code : Suit → Nat
  | .spades => 0x2660
  | .clubs => 0x2663
  | .hearts => 0x2665
  | .diamonds => 0x2666

/-- The 13 rank values from the `RANKS` table (2 … 14, Ace highest). -/
def RANK_VALUES : List Nat := [2, 3, 4, 5, 6, 7, 8, 9, 10, 11, 12, 13, 14]

/-- A card: suit plus the numeric rank value (`Card.value = rank.value`). -/
structure Card where
  suit : Suit
  value : Nat
deriving DecidableEq

/-- A player; presentation-only fields (names, timestamps, message ids) of
the source class are omitted. -/
structure Player where
  user_id : Nat
  cards : List Card
  tricks_won : Nat
  score : Nat
  verified : Bool
deriving DecidableEq

/-- One trick (`class Round` in the source). `cards_played` is the
insertion-ordered `user_id → Card` dictionary. -/
structure Round where
  cards_played : List (Nat × Card)
  starting_player_id : Option Nat
  winner_id : Option Nat
deriving DecidableEq

/-- `Round()` — a fresh empty round. -/
def Round.new : Round :=
  { cards_played := [], starting_player_id := none, winner_id := none }

/-- `Round.is_complete`. -/
def Round.is_complete (r : Round) (players_count : Nat) : Bool :=
  r.cards_played.length == players_count

/-- The game session (`class Game`); messaging-related fields are omitted. -/
structure Game where
  creator_id : Nat
  players : List Player
  deck : List Card
  current_round : Round
  rounds : List Round
  turn_order : List Nat
  current_turn_index : Nat
  trump_suit : Option Suit
  trump_chooser_id : Option Nat
  state : String
deriving DecidableEq

/-- Python dict assignment on an insertion-ordered association list:
replace the first entry with the given key in place, else append. -/
def dictInsert (l : List (Nat × Card)) (k : Nat) (v : Card) : List (Nat × Card) :=
  match l with
  | [] => [(k, v)]
  | (k', v') :: rest => if k' = k then (k, v) :: rest else (k', v') :: dictInsert rest k v

/-- Replace the first element satisfying `q` by `a` (models in-place
mutation of the object found by a linear search). -/
def setFirst (q : Player → Bool) (a : Player) : List Player → List Player
  | [] => []
  | x :: xs => if q x then a :: xs else x :: setFirst q a xs

/-- `Game.get_player`: linear search for the first player with this id. -/
def Game.get_player (g : Game) (user_id : Nat) : Option Player :=
  g.players.find? (fun p => p.user_id == user_id)

/-- `Game.add_player`. -/
def Game.add_player (g : Game) (p : Player) : Game × Bool :=
  if 4 ≤ g.players.length then (g, false)
  else if g.players.any (fun q => q.user_id == p.user_id) then (g, false)
  else ({ g with players := g.players ++ [p] }, true)

/-- `Game.remove_player`: pop the first player with this id. -/
def Game.remove_player (g : Game) (user_id : Nat) : Game × Bool :=
  if g.players.any (fun p => p.user_id == user_id) then
    ({ g with players := g.players.eraseP (fun p => p.user_id == user_id) }, true)
  else (g, false)

/-- `Game.initialize_deck` before the shuffle: all 52 `(Suit, Rank)`
combinations in the source's nesting order. -/
def Game.initialize_deck : List Card :=
  [Suit.hearts, Suit.diamonds, Suit.clubs, Suit.spades].flatMap
    (fun s => RANK_VALUES.map (fun v => { suit := s, value := v }))

/-- The sort key order used by `player.cards.sort(key=lambda c: (c.suit.value, c.rank.value))`. -/
def cardLe (a b : Card) : Bool :=
  decide (a.suit.code < b.suit.code) ||
    (a.suit.code == b.suit.code && a.value ≤ b.value)

/-- Insert into a `cardLe`-sorted list. -/
def insertCard (a : Card) : List Card → List Card
  | [] => [a]
  | b :: bs => if cardLe a b then a :: b :: bs else b :: insertCard a bs

/-- Stable insertion sort by `cardLe` (the hand sort in `deal_cards`). -/
def sortCards : List Card → List Card
  | [] => []
  | a :: rest => insertCard a (sortCards rest)

/-- `Game.deal_cards`: hand the `i`-th player `deck[13*i : 13*i + 13]`, sorted. -/
def Game.deal_cards (g : Game) : Game :=
  { g with
    players := g.players.enum.map (fun ip =>
      { ip.2 with cards := sortCards ((g.deck.drop (ip.1 * 13)).take 13) }) }

/-- `Game.start_game`. The two `random.shuffle` calls are modelled by the
function parameters; `self.turn_order[0]` is modelled by `head?` (with at
least 4 players and a permuting shuffle the list is never empty). -/
def Game.start_game (g : Game) (shuffle_deck : List Card → List Card)
    (shuffle_order : List Nat → List Nat) : Game × Bool :=
  if g.players.length < 4 then (g, false)
  else if ¬ (g.players.all (fun p => p.verified) = true) then (g, false)
  else
    let g1 := { g with deck := shuffle_deck Game.initialize_deck }
    let g2 := g1.deal_cards
    let order := shuffle_order (g2.players.map (fun p => p.user_id))
    ({ g2 with
        turn_order := order
        current_turn_index := 0
        state := "choosing_trump"
        trump_chooser_id := order.head? }, true)

/-- `Game.choose_trump`. -/
def Game.choose_trump (g : Game) (user_id : Nat) (suit : Suit) : Game × Bool :=
  if g.state ≠ "choosing_trump" ∨ g.trump_chooser_id ≠ some user_id then (g, false)
  else ({ g with trump_suit := some suit, state := "playing" }, true)

/-- `Game.can_play_card` (the unused `is_first_card` parameter of the
source is kept). -/
def Game.can_play_card (g : Game) (player : Player) (card : Card)
    (_is_first_card : Bool := false) : Bool :=
  match g.current_round.cards_played with
  | [] => true
  | (_, first_card) :: _ =>
    if card.suit = first_card.suit then true
    else if player.cards.any (fun c => c.suit == first_card.suit) then false
    else true

/-- One comparison step of the `get_round_winner` loop (the loop body,
with `win` the current `(winning_player_id, winning_card)`). -/
def pickWinner (trump : Option Suit) (leading : Suit)
    (win pc : Nat × Card) : Nat × Card :=
  if some pc.2.suit = trump then
    if ¬ some win.2.suit = trump then pc
    else if win.2.value < pc.2.value then pc
    else win
  else if pc.2.suit = leading ∧ win.2.suit = leading then
    if win.2.value < pc.2.value then pc else win
  else if pc.2.suit = leading ∧ ¬ some win.2.suit = trump then pc
  else win

/-- `Game.get_round_winner`. The two `none` fallbacks correspond to
uncaught `KeyError`s in the source, reachable only from malformed rounds. -/
def Game.get_round_winner (g : Game) : Option Nat :=
  if g.current_round.cards_played.isEmpty then none
  else
    match g.current_round.starting_player_id with
    | none => none
    | some fid =>
      match g.current_round.cards_played.lookup fid with
      | none => none
      | some first_card =>
        some ((g.current_round.cards_played.foldl
          (pickWinner g.trump_suit first_card.suit) (fid, first_card)).1)

/-- `Game.calculate_scores`. -/
def Game.calculate_scores (g : Game) : Game :=
  { g with players := g.players.map (fun p => { p with score := p.tricks_won }) }

/-- Result of `Game.play_card`; in the source these are the
`(False, None, message)` tuples, with the `SuitViolation` message carrying
the list of currently-legal cards formatted into the text. -/
inductive PlayErr where
  | notPlaying
  | notYourTurn
  | invalidCard
  | suitViolation (valid : List Card)
  | checkFailed
  | runtimeError
deriving DecidableEq

/-- `winner = self.get_player(winner_id); if winner: winner.tricks_won += 1`
from the trick-resolution part of `play_card`. -/
def bumpWinner (g1 : Game) (w : Nat) : List Player :=
  match g1.get_player w with
  | none => g1.players
  | some pw =>
    setFirst (fun p => p.user_id == w)
      { pw with tricks_won := pw.tricks_won + 1 } g1.players

/-- The mutation tail of `Game.play_card` after the legality check
(factored out of the source method body for reuse in proofs): install the
updated player list and round, advance the turn, and, if the trick is
complete, resolve it. -/
def Game.finish_play (g : Game) (players1 : List Player) (round2 : Round)
    (card : Card) : Game × Except PlayErr Card :=
  let g1 := { g with
    players := players1
    current_round := round2
    current_turn_index := (g.current_turn_index + 1) % g.players.length }
  if round2.is_complete g.players.length then
    match g1.get_round_winner with
    | none =>
      ({ g1 with
          current_round := Round.new
          rounds := g1.rounds ++ [{ round2 with winner_id := none }] },
       .error .runtimeError)
    | some w =>
      let players2 := bumpWinner g1 w
      let g2 := { g1 with
        players := players2
        rounds := g1.rounds ++ [{ round2 with winner_id := some w }]
        current_round := Round.new }
      match g2.turn_order.findIdx? (fun x => x == w) with
      | none => (g2, .error .runtimeError)
      | some winner_index =>
        let g3 := { g2 with current_turn_index := winner_index }
        if g3.players.all (fun p => p.cards.isEmpty) then
          (({ g3 with state := "finished" }).calculate_scores, .ok card)
        else (g3, .ok card)
  else (g1, .ok card)

deriving instance DecidableEq for Except

/-- `Game.play_card`. -/
def Game.play_card (g : Game) (user_id : Nat) (card_index : Nat) :
    Game × Except PlayErr Card :=
  if ¬ g.state = "playing" then (g, .error .notPlaying)
  else
    match g.turn_order[g.current_turn_index]? with
    | none => (g, .error .runtimeError)
    | some current_player_id =>
      if ¬ user_id = current_player_id then (g, .error .notYourTurn)
      else
        match g.get_player user_id with
        | none => (g, .error .invalidCard)
        | some player =>
          if player.cards.length ≤ card_index then (g, .error .invalidCard)
          else
            match player.cards[card_index]? with
            | none => (g, .error .invalidCard)
            | some card =>
              if ¬ g.can_play_card player card = true then
                let valid := player.cards.filter (fun c => g.can_play_card player c)
                if valid.isEmpty then (g, .error .checkFailed)
                else (g, .error (.suitViolation valid))
              else
                let player1 := { player with cards := player.cards.eraseIdx card_index }
                let players1 := setFirst (fun p => p.user_id == user_id) player1 g.players
                let round1 :=
                  if g.current_round.cards_played.isEmpty then
                    { g.current_round with starting_player_id := some user_id }
                  else g.current_round
                let round2 := { round1 with
                  cards_played := dictInsert round1.cards_played user_id card }
                g.finish_play players1 round2 card

/-- Result of the `/leave` command's game-state logic. -/
inductive LeaveResult where
  | isCreator
  | gameRunning
  | left
  | notInGame
deriving DecidableEq

/-- The state-machine part of `leave_command` in the source: the creator
cannot leave, leaving is refused unless the game is `waiting`, and only
then is `Game.remove_player` invoked. This is the sole caller of
`Game.remove_player` in the source. -/
def leaveCommand (g : Game) (user_id : Nat) : Game × LeaveResult :=
  if user_id = g.creator_id then (g, .isCreator)
  else if ¬ g.state = "waiting" then (g, .gameRunning)
  else
    let r := g.remove_player user_id
    if r.2 then (r.1, .left) else (r.1, .notInGame)

/-- Is a `play_card` result a success. -/
def playOk (r : Except PlayErr Card) : Bool :=
  match r with
  | .ok _ => true
  | .error _ => false

example : Game.initialize_deck.length = 52 := by decide
example : Game.initialize_deck.Nodup := by decide

/-! ## Concrete sessions used by the examples and counterexamples -/

/-- A freshly joined, verified player. -/
def mkPlayer (uid : Nat) : Player :=
  { user_id := uid, cards := [], tricks_won := 0, score := 0, verified := true }

/-- A full, all-verified table in the `waiting` state. -/
def gWaiting : Game :=
  { creator_id := 1
    players := [mkPlayer 1, mkPlayer 2, mkPlayer 3, mkPlayer 4]
    deck := []
    current_round := Round.new
    rounds := []
    turn_order := []
    current_turn_index := 0
    trump_suit := none
    trump_chooser_id := none
    state := "waiting" }

/-- A deck arrangement (a permutation of the full deck) that gives player 1
all spades, player 2 all hearts, player 3 all diamonds, player 4 all clubs. -/
def simDeck : List Card :=
  [Suit.spades, Suit.hearts, Suit.diamonds, Suit.clubs].flatMap
    (fun s => RANK_VALUES.map (fun v => { suit := s, value := v }))

/-- Run a sequence of `(user_id, card_index)` plays, keeping the state. -/
def playSeq (g : Game) : List (Nat × Nat) → Game
  | [] => g
  | (u, i) :: rest => playSeq (g.play_card u i).1 rest

/-- `n` tricks in which each player plays the first card of their hand, in
seat order 1, 2, 3, 4. -/
def simPlays (n : Nat) : List (Nat × Nat) :=
  (List.range n).flatMap (fun _ => [(1, 0), (2, 0), (3, 0), (4, 0)])

/-- The session after dealing `simDeck`, trump spades, and `n` completed
tricks; player 1 holds only trump and wins every trick. -/
def simGame (n : Nat) : Game :=
  playSeq (((gWaiting.start_game (fun _ => simDeck) (fun _ => [1, 2, 3, 4])).1.choose_trump
    1 Suit.spades).1) (simPlays n)

set_option maxRecDepth 20000

/-! ## Helper lemmas -/

theorem dictInsert_ne_nil (l : List (Nat × Card)) (k : Nat) (v : Card) :
    dictInsert l k v ≠ [] := by
  cases l with
  | nil => simp [dictInsert]
  | cons a rest =>
    simp only [dictInsert]
    split <;> simp

theorem calculate_scores_state (g : Game) : g.calculate_scores.state = g.state := rfl

theorem calculate_scores_round (g : Game) :
    g.calculate_scores.current_round = g.current_round := rfl

theorem calculate_scores_all_empty (g : Game) :
    g.calculate_scores.players.all (fun p => p.cards.isEmpty) =
      g.players.all (fun p => p.cards.isEmpty) := by
  simp only [Game.calculate_scores, List.all_map]
  rfl

theorem setFirst_length (q : Player → Bool) (a : Player) (l : List Player) :
    (setFirst q a l).length = l.length := by
  induction l with
  | nil => rfl
  | cons x xs ih =>
    simp only [setFirst]
    split <;> simp [ih]

theorem find?_setFirst_self (q : Player → Bool) (a p : Player) (l : List Player)
    (hfind : l.find? q = some p) (hqa : q a = true) :
    (setFirst q a l).find? q = some a := by
  induction l with
  | nil => simp at hfind
  | cons x xs ih =>
    by_cases hx : q x = true
    · simp [setFirst, hx, List.find?, hqa]
    · rw [List.find?_cons_of_neg _ (by simpa using hx)] at hfind
      simp only [setFirst]
      rw [if_neg hx, List.find?_cons_of_neg _ (by simpa using hx)]
      exact ih hfind

theorem find?_setFirst_other (q r : Player → Bool) (a : Player) (l : List Player)
    (hqr : ∀ x, q x = true → r x = false) (hra : r a = false) :
    (setFirst q a l).find? r = l.find? r := by
  induction l with
  | nil => rfl
  | cons x xs ih =>
    by_cases hx : q x = true
    · simp only [setFirst, hx, if_true]
      rw [List.find?_cons_of_neg _ (by simp [hra]),
        List.find?_cons_of_neg _ (by simp [hqr x hx])]
    · simp only [setFirst]
      rw [if_neg hx]
      cases hr : r x with
      | true =>
        rw [List.find?_cons_of_pos _ hr, List.find?_cons_of_pos _ hr]
      | false =>
        rw [List.find?_cons_of_neg _ (by simp [hr]),
          List.find?_cons_of_neg _ (by simp [hr])]
        exact ih

theorem setFirst_all_of_find? (q : Player → Bool) (a p : Player) (f : Player → Bool)
    (l : List Player) (hfind : l.find? q = some p) (hfa : f a = f p) :
    (setFirst q a l).all f = l.all f := by
  induction l with
  | nil => simp at hfind
  | cons x xs ih =>
    by_cases hx : q x = true
    · rw [List.find?_cons_of_pos _ hx] at hfind
      obtain rfl : x = p := by simpa using hfind
      simp [setFirst, hx, hfa]
    · rw [List.find?_cons_of_neg _ (by simpa using hx)] at hfind
      simp [setFirst, hx, ih hfind]

theorem bumpWinner_all_empty (g1 : Game) (w : Nat) :
    (bumpWinner g1 w).all (fun p => p.cards.isEmpty) =
      g1.players.all (fun p => p.cards.isEmpty) := by
  unfold bumpWinner
  cases hfind : g1.get_player w with
  | none => rfl
  | some pw =>
    exact setFirst_all_of_find? _ _ pw _ _ hfind rfl

theorem finish_play_states (g : Game) (players1 : List Player) (round2 : Round)
    (card : Card) (g' : Game) (c : Card)
    (hplaying : g.state = "playing")
    (hne : round2.cards_played ≠ [])
    (h : g.finish_play players1 round2 card = (g', Except.ok c)) :
    (g'.state = "playing" ∨ g'.state = "finished") ∧
    (g'.state = "finished" ↔
      g'.current_round.cards_played = [] ∧
        g'.players.all (fun p => p.cards.isEmpty) = true) := by
  unfold Game.finish_play at h
  simp only [] at h
  split at h
  · -- trick completed
    split at h
    · simp at h
    split at h
    · simp at h
    split at h
    next hempty =>
      -- all hands empty: state becomes "finished"
      rw [Prod.mk.injEq] at h
      obtain ⟨hg, -⟩ := h
      subst hg
      refine ⟨Or.inr rfl, fun _ => ⟨rfl, ?_⟩, fun _ => rfl⟩
      rw [calculate_scores_all_empty]
      exact hempty
    next hempty =>
      rw [Prod.mk.injEq] at h
      obtain ⟨hg, -⟩ := h
      subst hg
      refine ⟨Or.inl hplaying, ?_⟩
      constructor
      · intro hfin
        rw [hplaying] at hfin
        simp at hfin
      · rintro ⟨-, hall⟩
        exact absurd hall (by simpa using hempty)
  · -- trick not completed: the current round is nonempty
    rw [Prod.mk.injEq] at h
    obtain ⟨hg, -⟩ := h
    subst hg
    refine ⟨Or.inl hplaying, ?_⟩
    constructor
    · intro hfin
      rw [hplaying] at hfin
      simp at hfin
    · rintro ⟨hnil, -⟩
      exact absurd hnil hne

/-- `C3` (amended): a successful play leaves the state `playing` or
`finished`, and it is `finished` exactly when the trick just closed and
every hand is now empty — there is no early termination at 7 tricks. -/
theorem C3_no_early_termination (g g' : Game) (uid i : Nat) (c : Card)
    (h : g.play_card uid i = (g', Except.ok c)) :
    (g'.state = "playing" ∨ g'.state = "finished") ∧
    (g'.state = "finished" ↔
      g'.current_round.cards_played = [] ∧
        g'.players.all (fun p => p.cards.isEmpty) = true) := by
  unfold Game.play_card at h
  split at h
  · simp at h
  next hplaying =>
    simp only [not_not] at hplaying
    split at h
    · simp at h
    split at h
    · simp at h
    split at h
    · simp at h
    split at h
    · simp at h
    split at h
    · simp at h
    split at h
    · simp only [] at h
      split at h <;> simp at h
    · simp only [] at h
      by_cases hemp : g.current_round.cards_played.isEmpty = true
      · rw [if_pos hemp] at h
        exact finish_play_states _ _ _ _ _ _ hplaying (dictInsert_ne_nil _ _ _) h
      · rw [if_neg hemp] at h
        exact finish_play_states _ _ _ _ _ _ hplaying (dictInsert_ne_nil _ _ _) h

/-- Witness: the simulated session gives a concrete successful play. -/
theorem C3_no_early_termination_witness :
    ((simGame 7).state = "playing" ∨ (simGame 7).state = "finished") ∧
      ((simGame 7).state = "finished" ↔
        (simGame 7).current_round.cards_played = [] ∧
          (simGame 7).players.all (fun p => p.cards.isEmpty) = true) :=
  C3_no_early_termination (playSeq (simGame 6) [(1, 0), (2, 0), (3, 0)]) (simGame 7)
    4 0 { suit := Suit.clubs, value := 8 } (by decide)

/-- `C3` counterexample: with a legitimate shuffle, after the 7th trick
the team of players 1 and 3 holds 7 tricks, yet the session is still
`playing` (the source has no `hand_finished` state at all) and the next
trick is played successfully. -/
theorem C3_counterexample :
    simDeck.Perm Game.initialize_deck ∧
    ((simGame 7).get_player 1).map Player.tricks_won = some 7 ∧
    ((simGame 7).get_player 3).map Player.tricks_won = some 0 ∧
    (simGame 7).state = "playing" ∧
    playOk ((simGame 7).play_card 1 0).2 = true := by decide

/-! ## Dealing (claims C4 and C5) -/

theorem insertCard_perm (a : Card) (l : List Card) :
    (insertCard a l).Perm (a :: l) := by
  induction l with
  | nil => exact List.Perm.refl _
  | cons b bs ih =>
    simp only [insertCard]
    split
    · exact List.Perm.refl _
    · exact (ih.cons b).trans (List.Perm.swap a b bs)

theorem sortCards_perm (l : List Card) : (sortCards l).Perm l := by
  induction l with
  | nil => exact List.Perm.refl _
  | cons a rest ih => exact (insertCard_perm a (sortCards rest)).trans (ih.cons a)

theorem insertCard_length (a : Card) (l : List Card) :
    (insertCard a l).length = l.length + 1 :=
  (insertCard_perm a l).length_eq

theorem sortCards_length (l : List Card) : (sortCards l).length = l.length :=
  (sortCards_perm l).length_eq

theorem list_len4 {α : Type} (l : List α) (h : l.length = 4) :
    ∃ a b c d, l = [a, b, c, d] := by
  match l, h with
  | [a, b, c, d], _ => exact ⟨a, b, c, d, rfl⟩

theorem card_mem_initialize_deck (s : Suit) (v : Nat) (hv : v ∈ RANK_VALUES) :
    ({ suit := s, value := v } : Card) ∈ Game.initialize_deck := by
  unfold Game.initialize_deck
  rw [List.mem_flatMap]
  refine ⟨s, ?_, List.mem_map_of_mem _ hv⟩
  cases s <;> simp

theorem four_slices (d : List Card) (h : d.length = 52) :
    (d.drop 0).take 13 ++ ((d.drop 13).take 13 ++ ((d.drop 26).take 13 ++
      ((d.drop 39).take 13 ++ []))) = d := by
  have h39 : (d.drop 39).take 13 = d.drop 39 := by
    apply List.take_of_length_le
    simp [h]
  have e1 : (d.drop 13).drop 13 = d.drop 26 := by
    rw [List.drop_drop]
  have e2 : (d.drop 26).drop 13 = d.drop 39 := by
    rw [List.drop_drop]
  rw [h39, List.drop_zero, List.append_nil, ← e2, ← e1, List.take_append_drop,
    List.take_append_drop, List.take_append_drop]

/-- The hands produced by a successful `start_game`, as one list. -/
def dealtCards (g : Game) : List Card :=
  (g.players.map Player.cards).flatten

theorem map_snd_enumFrom {α : Type} (n : Nat) (l : List α) :
    (List.enumFrom n l).map Prod.snd = l := by
  induction l generalizing n with
  | nil => rfl
  | cons x xs ih => simp [List.enumFrom, ih]

theorem deal_map_user_id (d : List Card) (l : List Player) :
    List.map (fun p => p.user_id)
      (l.enum.map (fun ip =>
        { ip.2 with cards := sortCards ((d.drop (ip.1 * 13)).take 13) })) =
      List.map (fun p => p.user_id) l := by
  rw [List.map_map]
  have he : ((fun p => p.user_id) ∘ fun ip : Nat × Player =>
      { ip.2 with cards := sortCards ((d.drop (ip.1 * 13)).take 13) }) =
      ((fun p => p.user_id) ∘ Prod.snd) := rfl
  rw [he, ← List.map_map, List.enum, map_snd_enumFrom]

theorem start_game_players (g : Game) (sd : List Card → List Card)
    (si : List Nat → List Nat)
    (hsucc : (g.start_game sd si).2 = true) :
    (g.start_game sd si).1.players =
      g.players.enum.map (fun ip =>
        { ip.2 with cards := sortCards (((sd Game.initialize_deck).drop (ip.1 * 13)).take 13) }) ∧
    (g.start_game sd si).1.state = "choosing_trump" ∧
    (g.start_game sd si).1.turn_order = si (g.players.map (fun p => p.user_id)) ∧
    (g.start_game sd si).1.current_turn_index = 0 ∧
    (g.start_game sd si).1.trump_chooser_id =
      (si (g.players.map (fun p => p.user_id))).head? := by
  unfold Game.start_game at hsucc ⊢
  split at hsucc
  · simp at hsucc
  next h1 =>
    split at hsucc
    · simp at hsucc
    next h2 =>
      rw [if_neg h1, if_neg h2]
      simp only [Game.deal_cards]
      refine ⟨?_, ?_, ?_, ?_, ?_⟩ <;> first | trivial | rw [deal_map_user_id]

/-- The session after dealing from an unshuffled deck with identity turn
order: players 1, 2, 3, 4 in seat order, chooser 1. -/
def gDealt : Game := (gWaiting.start_game (fun d => d) (fun l => l)).1

/-- `C4` (amended): a successful `start_game` deals all 13 cards to every
player before trump selection, and a `choose_trump` deals nothing further
(hands are untouched), so each player already holds 13 cards when play
begins. -/
theorem C4_thirteen_card_deal (g : Game) (sd : List Card → List Card)
    (si : List Nat → List Nat)
    (hlen : g.players.length = 4)
    (hdeck : (sd Game.initialize_deck).length = 52)
    (hsucc : (g.start_game sd si).2 = true) :
    (g.start_game sd si).1.state = "choosing_trump" ∧
    (∀ p ∈ (g.start_game sd si).1.players, p.cards.length = 13) ∧
    (∀ (uid : Nat) (s : Suit),
      (((g.start_game sd si).1).choose_trump uid s).1.players =
        (g.start_game sd si).1.players) := by
  obtain ⟨hplayers, hstate, -, -, -⟩ := start_game_players g sd si hsucc
  refine ⟨hstate, ?_, ?_⟩
  · intro p hp
    rw [hplayers, List.mem_map] at hp
    obtain ⟨ip, hip, rfl⟩ := hp
    have hi : ip.1 < g.players.length := by
      rw [List.mem_enum_iff_getElem?] at hip
      exact (List.getElem?_eq_some.mp hip).1
    rw [hlen] at hi
    simp only [sortCards_length, List.length_take, List.length_drop, hdeck]
    omega
  · intro uid s
    unfold Game.choose_trump
    split <;> rfl

/-- `C4` counterexample: with an identity shuffle the dealt session is in
`choosing_trump` with player 1 already holding 13 cards (not 5), and a
successful `choose_trump` leaves the hand at 13 cards (no second deal). -/
theorem C4_counterexample :
    gDealt.state = "choosing_trump" ∧
    (gDealt.get_player 1).map (fun p => p.cards.length) = some 13 ∧
    ¬ (gDealt.get_player 1).map (fun p => p.cards.length) = some 5 ∧
    (gDealt.choose_trump 1 Suit.hearts).2 = true ∧
    ((gDealt.choose_trump 1 Suit.hearts).1.get_player 1).map
      (fun p => p.cards.length) = some 13 := by decide

/-- Witness for `C4_thirteen_card_deal` at the concrete dealt session. -/
theorem C4_thirteen_card_deal_witness :
    gDealt.state = "choosing_trump" ∧
    (∀ p ∈ gDealt.players, p.cards.length = 13) ∧
    (∀ (uid : Nat) (s : Suit),
      ((gDealt.choose_trump uid s).1).players = gDealt.players) :=
  C4_thirteen_card_deal gWaiting (fun d => d) (fun l => l)
    (by decide) (by decide) (by decide)

/-- `C5`: the built deck is the full 52-card universe, and for any
permuting shuffle a successful deal hands out exactly those 52 cards:
pairwise distinct and covering every (suit, rank) combination. -/
theorem C5_deck_integrity (g : Game) (sd : List Card → List Card)
    (si : List Nat → List Nat)
    (hlen : g.players.length = 4)
    (hperm : (sd Game.initialize_deck).Perm Game.initialize_deck)
    (hsucc : (g.start_game sd si).2 = true) :
    Game.initialize_deck.length = 52 ∧ Game.initialize_deck.Nodup ∧
    (dealtCards (g.start_game sd si).1).Perm Game.initialize_deck ∧
    (dealtCards (g.start_game sd si).1).Nodup ∧
    (∀ (s : Suit) (v : Nat), v ∈ RANK_VALUES →
      ({ suit := s, value := v } : Card) ∈ dealtCards (g.start_game sd si).1) := by
  obtain ⟨hplayers, -, -, -, -⟩ := start_game_players g sd si hsucc
  have hnodup : Game.initialize_deck.Nodup := by decide
  have hdlen : (sd Game.initialize_deck).length = 52 := by
    rw [hperm.length_eq]; decide
  obtain ⟨a, b, c, d, hl⟩ := list_len4 g.players hlen
  have hperm2 : (dealtCards (g.start_game sd si).1).Perm (sd Game.initialize_deck) := by
    unfold dealtCards
    rw [hplayers, hl]
    simp only [List.enum, List.enumFrom, List.map, List.flatten, Nat.zero_mul,
      Nat.one_mul]
    refine List.Perm.trans ((sortCards_perm _).append ((sortCards_perm _).append
      ((sortCards_perm _).append ((sortCards_perm _).append (List.Perm.refl []))))) ?_
    rw [four_slices _ hdlen]
  have hperm3 := hperm2.trans hperm
  refine ⟨by decide, hnodup, hperm3, hperm3.nodup_iff.mpr hnodup, ?_⟩
  intro s v hv
  exact hperm3.mem_iff.mpr (card_mem_initialize_deck s v hv)

/-- Witness for `C5_deck_integrity` at the concrete dealt session. -/
theorem C5_deck_integrity_witness :
    Game.initialize_deck.length = 52 ∧ Game.initialize_deck.Nodup ∧
    (dealtCards gDealt).Perm Game.initialize_deck ∧
    (dealtCards gDealt).Nodup ∧
    (∀ (s : Suit) (v : Nat), v ∈ RANK_VALUES →
      ({ suit := s, value := v } : Card) ∈ dealtCards gDealt) :=
  C5_deck_integrity gWaiting (fun d => d) (fun l => l)
    (by decide) (List.Perm.refl _) (by decide)

/-! ## Turn order and lifecycle (claims C7, C8, C9) -/

/-- `C7` (amended): after a successful `choose_trump` the chooser is the
recorded trump chooser, the turn index is 0 and the chooser heads the turn
order, so the chooser leads the first trick; but the turn order itself is
whatever the `start_game` shuffle produced. -/
theorem C7_chooser_leads (g : Game) (sd : List Card → List Card)
    (si : List Nat → List Nat) (u : Nat) (s : Suit)
    (h1 : (g.start_game sd si).2 = true)
    (h2 : (((g.start_game sd si).1).choose_trump u s).2 = true) :
    (((g.start_game sd si).1).choose_trump u s).1.trump_chooser_id = some u ∧
    (((g.start_game sd si).1).choose_trump u s).1.current_turn_index = 0 ∧
    (((g.start_game sd si).1).choose_trump u s).1.turn_order.head? = some u ∧
    (((g.start_game sd si).1).choose_trump u s).1.turn_order =
      si (g.players.map (fun p => p.user_id)) ∧
    (((g.start_game sd si).1).choose_trump u s).1.state = "playing" := by
  obtain ⟨-, -, horder, hidx, hchooser⟩ := start_game_players g sd si h1
  unfold Game.choose_trump at h2 ⊢
  split at h2
  · simp at h2
  next hcond =>
    rw [if_neg hcond]
    push_neg at hcond
    obtain ⟨-, hcid⟩ := hcond
    refine ⟨hcid, hidx, ?_, horder, rfl⟩
    rw [horder, ← hchooser]
    exact hcid

/-- The session dealt with the non-rotation shuffle `[1, 3, 2, 4]`. -/
def gShuffled : Game := (gWaiting.start_game (fun d => d) (fun _ => [1, 3, 2, 4])).1

/-- `C7` counterexample: the shuffle can legitimately produce `[1, 3, 2, 4]`;
the chooser is player 1 (seat 0), so "seating order starting at the
chooser's seat" would be `[1, 2, 3, 4]`, but the trick-play turn order is
`[1, 3, 2, 4]`. -/
theorem C7_counterexample :
    ([1, 3, 2, 4] : List Nat).Perm [1, 2, 3, 4] ∧
    gWaiting.players.map (fun p => p.user_id) = [1, 2, 3, 4] ∧
    (gShuffled.choose_trump 1 Suit.hearts).2 = true ∧
    (gShuffled.choose_trump 1 Suit.hearts).1.trump_chooser_id = some 1 ∧
    (gShuffled.choose_trump 1 Suit.hearts).1.turn_order = [1, 3, 2, 4] ∧
    ¬ (gShuffled.choose_trump 1 Suit.hearts).1.turn_order = [1, 2, 3, 4] := by
  decide

/-- Witness for `C7_chooser_leads` with the identity shuffles. -/
theorem C7_chooser_leads_witness :
    (gDealt.choose_trump 1 Suit.hearts).1.trump_chooser_id = some 1 ∧
    (gDealt.choose_trump 1 Suit.hearts).1.current_turn_index = 0 ∧
    (gDealt.choose_trump 1 Suit.hearts).1.turn_order.head? = some 1 ∧
    (gDealt.choose_trump 1 Suit.hearts).1.turn_order =
      gWaiting.players.map (fun p => p.user_id) ∧
    (gDealt.choose_trump 1 Suit.hearts).1.state = "playing" :=
  C7_chooser_leads gWaiting (fun d => d) (fun l => l) 1 Suit.hearts
    (by decide) (by decide)

/-- `C8` exposes a code bug: `Game.start_game` never checks `state`
(the `/startgame` command handler guards `state != "waiting"`, but the
engine method and the inline start-button handler do not), so restarting a
session that is mid-play — or even `finished` — succeeds and re-enters
`choosing_trump`, instead of failing as the specification requires. -/
theorem C8_start_game_ignores_state :
    (simGame 0).state = "playing" ∧
    ((simGame 0).start_game (fun d => d) (fun l => l)).2 = true ∧
    ((simGame 0).start_game (fun d => d) (fun l => l)).1.state = "choosing_trump" ∧
    (simGame 13).state = "finished" ∧
    ((simGame 13).start_game (fun d => d) (fun l => l)).2 = true ∧
    ((simGame 13).start_game (fun d => d) (fun l => l)).1.state = "choosing_trump" := by
  decide

/-- `C9`: the only player-removal path in the source is the `/leave`
command, and it removes a player only while the session is `waiting`;
in any other state it fails and leaves the session untouched. -/
theorem C9_remove_only_waiting :
    (∀ (g : Game) (uid : Nat),
      (leaveCommand g uid).2 = LeaveResult.left → g.state = "waiting") ∧
    (∀ (g : Game) (uid : Nat), ¬ g.state = "waiting" →
      (leaveCommand g uid).1 = g ∧ ¬ (leaveCommand g uid).2 = LeaveResult.left) := by
  constructor
  · intro g uid h
    unfold leaveCommand at h
    split at h
    · simp at h
    split at h
    · simp at h
    next h2 => exact not_not.mp h2
  · intro g uid hst
    unfold leaveCommand
    by_cases hc : uid = g.creator_id
    · rw [if_pos hc]
      exact ⟨rfl, by simp⟩
    · rw [if_neg hc, if_pos hst]
      exact ⟨rfl, by simp⟩

/-- Witness for `C9_remove_only_waiting`: a successful leave from the
waiting table, and a rejected, mutation-free leave from a playing one. -/
theorem C9_remove_only_waiting_witness :
    gWaiting.state = "waiting" ∧
    (leaveCommand (simGame 0) 2).1 = simGame 0 ∧
    ¬ (leaveCommand (simGame 0) 2).2 = LeaveResult.left :=
  ⟨C9_remove_only_waiting.1 gWaiting 2 (by decide),
   C9_remove_only_waiting.2 (simGame 0) 2 (by decide)⟩

/-! ## Trick resolution machinery (claims C1, C2, C6, C10) -/

theorem pickWinner_cases (t : Option Suit) (lead : Suit) (win pc : Nat × Card) :
    pickWinner t lead win pc = win ∨ pickWinner t lead win pc = pc := by
  unfold pickWinner
  split_ifs <;> simp

theorem foldl_pickWinner_mem (t : Option Suit) (lead : Suit) :
    ∀ (xs : List (Nat × Card)) (init : Nat × Card),
      xs.foldl (pickWinner t lead) init = init ∨
        xs.foldl (pickWinner t lead) init ∈ xs := by
  intro xs
  induction xs with
  | nil => intro init; exact Or.inl rfl
  | cons x xs ih =>
    intro init
    rw [List.foldl_cons]
    rcases ih (pickWinner t lead init x) with h | h
    · rcases pickWinner_cases t lead init x with h2 | h2
      · exact Or.inl (h.trans h2)
      · exact Or.inr (by rw [h, h2]; exact List.mem_cons_self x xs)
    · exact Or.inr (List.mem_cons_of_mem x h)

theorem lookup_head (f : Nat) (c : Card) (rest : List (Nat × Card)) :
    ((f, c) :: rest).lookup f = some c := by
  simp [List.lookup]

theorem get_round_winner_spec (g : Game) (f : Nat) (c : Card)
    (rest : List (Nat × Card))
    (hplays : g.current_round.cards_played = (f, c) :: rest)
    (hstart : g.current_round.starting_player_id = some f) :
    ∃ w, g.get_round_winner = some w ∧
      ∃ pc ∈ (f, c) :: rest, pc.1 = w := by
  unfold Game.get_round_winner
  rw [hplays, hstart]
  simp only [List.isEmpty_cons, Bool.false_eq_true, if_false, lookup_head]
  refine ⟨_, rfl, ?_⟩
  rcases foldl_pickWinner_mem g.trump_suit c.suit ((f, c) :: rest) (f, c) with h | h
  · exact ⟨(f, c), List.mem_cons_self _ _, by rw [h]⟩
  · exact ⟨_, h, rfl⟩

theorem findIdx?_isSome_of_mem {w : Nat} :
    ∀ (l : List Nat) (i : Nat), w ∈ l →
      ∃ j, List.findIdx? (fun x => x == w) l i = some j := by
  intro l
  induction l with
  | nil => intro i h; simp at h
  | cons x xs ih =>
    intro i h
    rw [List.findIdx?_cons]
    by_cases hx : (x == w) = true
    · exact ⟨i, by rw [if_pos hx]⟩
    · rw [if_neg hx]
      apply ih
      rcases List.mem_cons.mp h with h1 | h1
      · exact absurd (by simp [h1]) hx
      · exact h1

theorem dictInsert_of_fresh (l : List (Nat × Card)) (k : Nat) (v : Card)
    (h : ∀ q ∈ l, q.1 ≠ k) : dictInsert l k v = l ++ [(k, v)] := by
  induction l with
  | nil => rfl
  | cons a rest ih =>
    cases a with
    | mk k' v' =>
      simp only [dictInsert]
      rw [if_neg (h (k', v') (List.mem_cons_self _ _)),
        ih (fun q hq => h q (List.mem_cons_of_mem _ hq))]
      rfl

theorem dictInsert_keys (l : List (Nat × Card)) (k : Nat) (v : Card)
    (q : Nat × Card) (hq : q ∈ dictInsert l k v) : q.1 = k ∨ q ∈ l := by
  induction l with
  | nil =>
    simp only [dictInsert, List.mem_singleton] at hq
    exact Or.inl (by rw [hq])
  | cons a rest ih =>
    cases a with
    | mk k' v' =>
      simp only [dictInsert] at hq
      split at hq
      · rcases List.mem_cons.mp hq with h | h
        · exact Or.inl (by rw [h])
        · exact Or.inr (List.mem_cons_of_mem _ h)
      · rcases List.mem_cons.mp hq with h | h
        · exact Or.inr (by rw [h]; exact List.mem_cons_self _ _)
        · rcases ih h with h2 | h2
          · exact Or.inl h2
          · exact Or.inr (List.mem_cons_of_mem _ h2)

theorem dictInsert_head_key (k' : Nat) (v' : Card) (rest : List (Nat × Card))
    (k : Nat) (v : Card) :
    ∃ w rest2, dictInsert ((k', v') :: rest) k v = (k', w) :: rest2 := by
  simp only [dictInsert]
  split
  next h => exact ⟨v, rest, by rw [h]⟩
  · exact ⟨v', dictInsert rest k v, rfl⟩

theorem finish_play_ok (g : Game) (players1 : List Player) (round2 : Round)
    (card : Card) (f : Nat) (c : Card) (rest : List (Nat × Card))
    (h2 : round2.cards_played = (f, c) :: rest)
    (hstart2 : round2.starting_player_id = some f)
    (hkeys2 : ∀ q ∈ round2.cards_played, q.1 ∈ g.turn_order) :
    ∃ g', g.finish_play players1 round2 card = (g', Except.ok card) := by
  unfold Game.finish_play
  by_cases hcomp : round2.is_complete g.players.length = true
  · rw [if_pos hcomp]
    obtain ⟨w, hw, pc, hpcmem, hpc⟩ :=
      get_round_winner_spec
        { g with
            players := players1
            current_round := round2
            current_turn_index := (g.current_turn_index + 1) % g.players.length }
        f c rest h2 hstart2
    have hwmem : w ∈ g.turn_order := by
      rw [← hpc]
      exact hkeys2 pc (by rw [h2]; exact hpcmem)
    obtain ⟨wi, hwi⟩ := findIdx?_isSome_of_mem g.turn_order 0 hwmem
    split
    next hnone => rw [hw] at hnone; simp at hnone
    next w2 hsome =>
      rw [hw] at hsome
      obtain rfl : w2 = w := by
        have := hsome
        simp at this
        exact this.symm
      simp only []
      split
      next hnone2 =>
        rw [hnone2] at hwi
        simp at hwi
      next wi2 hsome2 =>
        split
        · exact ⟨_, rfl⟩
        · exact ⟨_, rfl⟩
  · rw [if_neg hcomp]
    exact ⟨_, rfl⟩

/-- A two-seat table (start refuses to run). -/
def gShort : Game := { gWaiting with players := [mkPlayer 1, mkPlayer 2] }

/-- `C10`: every failing operation returns its error with the session left
unchanged. For `play_card` the two side conditions say the recorded trick
starter is the first entry of the trick dictionary and that every recorded
player is in the turn order — true in every reachable state (in a state
violating them the Python source would raise mid-mutation instead of
returning an error). -/
theorem C10_failure_no_mutation :
    (∀ (g : Game) (p : Player), (g.add_player p).2 = false → (g.add_player p).1 = g) ∧
    (∀ (g : Game) (uid : Nat),
      (g.remove_player uid).2 = false → (g.remove_player uid).1 = g) ∧
    (∀ (g : Game) (uid : Nat) (s : Suit),
      (g.choose_trump uid s).2 = false → (g.choose_trump uid s).1 = g) ∧
    (∀ (g : Game) (sd : List Card → List Card) (si : List Nat → List Nat),
      (g.start_game sd si).2 = false → (g.start_game sd si).1 = g) ∧
    (∀ (g : Game) (uid i : Nat) (e : PlayErr),
      g.current_round.starting_player_id =
        g.current_round.cards_played.head?.map Prod.fst →
      (∀ q ∈ g.current_round.cards_played, q.1 ∈ g.turn_order) →
      (g.play_card uid i).2 = Except.error e → (g.play_card uid i).1 = g) := by
  refine ⟨?_, ?_, ?_, ?_, ?_⟩
  · intro g p
    unfold Game.add_player
    split
    · intro _; rfl
    · split
      · intro _; rfl
      · intro h; simp at h
  · intro g uid
    unfold Game.remove_player
    split
    · intro h; simp at h
    · intro _; rfl
  · intro g uid s
    unfold Game.choose_trump
    split
    · intro _; rfl
    · intro h; simp at h
  · intro g sd si
    unfold Game.start_game
    split
    · intro _; rfl
    · split
      · intro _; rfl
      · intro h; simp at h
  · intro g uid i e hstart hkeys
    unfold Game.play_card
    split
    · intro _; rfl
    split
    · intro _; rfl
    next cur hcur =>
      split
      · intro _; rfl
      next hu =>
        split
        · intro _; rfl
        next player hp =>
          split
          · intro _; rfl
          next hlen =>
            split
            · intro _; rfl
            next card hcard =>
              split
              next hill =>
                simp only []
                split
                · intro _; rfl
                · intro _; rfl
              next hleg =>
                simp only []
                intro h
                exfalso
                have huid : uid = cur := not_not.mp hu
                have hcurmem : uid ∈ g.turn_order := by
                  rw [huid]; exact List.getElem?_mem hcur
                by_cases hemp : g.current_round.cards_played.isEmpty = true
                · rw [if_pos hemp] at h
                  have hnil : g.current_round.cards_played = [] :=
                    List.isEmpty_iff.mp hemp
                  obtain ⟨g', heq⟩ := finish_play_ok g
                    (setFirst (fun p => p.user_id == uid)
                      { player with cards := player.cards.eraseIdx i } g.players)
                    { { g.current_round with starting_player_id := some uid } with
                      cards_played := dictInsert
                        { g.current_round with
                          starting_player_id := some uid }.cards_played uid card }
                    card uid card []
                    (by simp only []; rw [hnil]; rfl)
                    rfl
                    (by
                      intro q hq
                      simp only [] at hq
                      rw [hnil] at hq
                      rcases dictInsert_keys [] uid card q hq with h1 | h1
                      · rw [h1]; exact hcurmem
                      · simp at h1)
                  rw [heq] at h
                  simp at h
                · rw [if_neg hemp] at h
                  have hne : g.current_round.cards_played ≠ [] := by
                    intro hx
                    rw [hx] at hemp
                    exact hemp rfl
                  obtain ⟨a, rest0, hcons⟩ := List.exists_cons_of_ne_nil hne
                  obtain ⟨w0, rest2, hins⟩ :=
                    dictInsert_head_key a.1 a.2 rest0 uid card
                  obtain ⟨g', heq⟩ := finish_play_ok g
                    (setFirst (fun p => p.user_id == uid)
                      { player with cards := player.cards.eraseIdx i } g.players)
                    { g.current_round with
                      cards_played := dictInsert g.current_round.cards_played uid card }
                    card a.1 w0 rest2
                    (by
                      simp only []
                      rw [hcons]
                      exact hins)
                    (by
                      simp only []
                      rw [hstart, hcons]
                      rfl)
                    (by
                      intro q hq
                      simp only [] at hq
                      rcases dictInsert_keys _ uid card q hq with h1 | h1
                      · rw [h1]; exact hcurmem
                      · exact hkeys q h1)
                  rw [heq] at h
                  simp at h

/-- Witness for `C10_failure_no_mutation`: concrete rejected calls of each
operation, none of which mutate the session. -/
theorem C10_failure_no_mutation_witness :
    (gWaiting.add_player (mkPlayer 9)).1 = gWaiting ∧
    (gWaiting.remove_player 9).1 = gWaiting ∧
    (gWaiting.choose_trump 1 Suit.hearts).1 = gWaiting ∧
    (gShort.start_game (fun d => d) (fun l => l)).1 = gShort ∧
    (gWaiting.play_card 1 0).1 = gWaiting :=
  ⟨C10_failure_no_mutation.1 gWaiting (mkPlayer 9) (by decide),
   C10_failure_no_mutation.2.1 gWaiting 9 (by decide),
   C10_failure_no_mutation.2.2.1 gWaiting 1 Suit.hearts (by decide),
   C10_failure_no_mutation.2.2.2.1 gShort (fun d => d) (fun l => l) (by decide),
   C10_failure_no_mutation.2.2.2.2 gWaiting 1 0 PlayErr.notPlaying
     (by decide) (by decide) (by decide)⟩


/-! ## Effects of a successful play (claim C6) -/

theorem get_player_eq_find? (g : Game) (v : Nat) :
    g.get_player v = g.players.find? (fun p => p.user_id == v) := rfl

theorem bumpWinner_find? (g1 : Game) (w v : Nat) (p1 : Player)
    (hfind : g1.players.find? (fun p => p.user_id == v) = some p1) :
    ∃ p', (bumpWinner g1 w).find? (fun p => p.user_id == v) = some p' ∧
      p'.cards = p1.cards := by
  unfold bumpWinner
  cases hgp : g1.get_player w with
  | none => exact ⟨p1, hfind, rfl⟩
  | some pw =>
    have hpw : pw.user_id = w := by
      unfold Game.get_player at hgp
      have h := List.find?_some hgp
      simpa using h
    by_cases hvw : v = w
    · subst hvw
      unfold Game.get_player at hgp
      rw [hfind] at hgp
      obtain rfl : p1 = pw := by simpa using hgp
      refine ⟨{ p1 with tricks_won := p1.tricks_won + 1 }, ?_, rfl⟩
      apply find?_setFirst_self _ _ p1 _ hfind
      simp [hpw]
    · refine ⟨p1, ?_, rfl⟩
      rw [find?_setFirst_other]
      · exact hfind
      · intro x hx
        have hxw : x.user_id = w := by simpa using hx
        simp only [beq_eq_false_iff_ne]
        intro hh
        exact hvw (hxw.symm.trans hh).symm
      · simp only [beq_eq_false_iff_ne]
        intro hh
        exact hvw (hpw.symm.trans hh).symm

theorem get_player_calculate_scores (g : Game) (v : Nat) :
    g.calculate_scores.get_player v =
      (g.get_player v).map (fun p => { p with score := p.tricks_won }) := by
  unfold Game.get_player Game.calculate_scores
  simp only []
  rw [List.find?_map]
  rfl

theorem finish_play_spec (g : Game) (players1 : List Player) (round2 : Round)
    (card : Card) (f : Nat) (c : Card) (rest : List (Nat × Card))
    (h2 : round2.cards_played = (f, c) :: rest)
    (hstart2 : round2.starting_player_id = some f)
    (hkeys2 : ∀ q ∈ round2.cards_played, q.1 ∈ g.turn_order) :
    (g.finish_play players1 round2 card).2 = Except.ok card ∧
    (∀ (v : Nat) (p1 : Player),
      players1.find? (fun p => p.user_id == v) = some p1 →
      ∃ p', (g.finish_play players1 round2 card).1.get_player v = some p' ∧
        p'.cards = p1.cards) ∧
    (¬ round2.is_complete g.players.length = true →
      (g.finish_play players1 round2 card).1.current_round = round2 ∧
      (g.finish_play players1 round2 card).1.current_turn_index =
        (g.current_turn_index + 1) % g.players.length) ∧
    (round2.is_complete g.players.length = true →
      ∃ w wi,
        g.turn_order.findIdx? (fun x => x == w) = some wi ∧
        (g.finish_play players1 round2 card).1.current_turn_index = wi ∧
        (g.finish_play players1 round2 card).1.rounds =
          g.rounds ++ [{ round2 with winner_id := some w }]) := by
  by_cases hcomp : round2.is_complete g.players.length = true
  · obtain ⟨w, hw, pc, hpcmem, hpc⟩ :=
      get_round_winner_spec
        { g with
            players := players1
            current_round := round2
            current_turn_index := (g.current_turn_index + 1) % g.players.length }
        f c rest h2 hstart2
    have hwmem : w ∈ g.turn_order := by
      rw [← hpc]
      exact hkeys2 pc (by rw [h2]; exact hpcmem)
    obtain ⟨wi, hwi⟩ := findIdx?_isSome_of_mem g.turn_order 0 hwmem
    have hres : g.finish_play players1 round2 card =
        (if (bumpWinner
              { g with
                  players := players1
                  current_round := round2
                  current_turn_index := (g.current_turn_index + 1) % g.players.length }
              w).all (fun p => p.cards.isEmpty) then
          (({ g with
              players := bumpWinner
                { g with
                    players := players1
                    current_round := round2
                    current_turn_index := (g.current_turn_index + 1) % g.players.length } w
              rounds := g.rounds ++ [{ round2 with winner_id := some w }]
              current_round := Round.new
              current_turn_index := wi
              state := "finished" }).calculate_scores, Except.ok card)
        else
          ({ g with
              players := bumpWinner
                { g with
                    players := players1
                    current_round := round2
                    current_turn_index := (g.current_turn_index + 1) % g.players.length } w
              rounds := g.rounds ++ [{ round2 with winner_id := some w }]
              current_round := Round.new
              current_turn_index := wi }, Except.ok card)) := by
      unfold Game.finish_play
      rw [if_pos hcomp, hw]
      simp only []
      simp only [hwi]
    rw [hres]
    refine ⟨?_, ?_, fun hnc => absurd hcomp hnc, fun _ => ⟨w, wi, hwi, ?_, ?_⟩⟩
    · split <;> rfl
    · intro v p1 hfind
      obtain ⟨p', hp', hcards⟩ := bumpWinner_find?
        { g with
            players := players1
            current_round := round2
            current_turn_index := (g.current_turn_index + 1) % g.players.length }
        w v p1 hfind
      split
      next hall =>
        rw [get_player_calculate_scores, get_player_eq_find?]
        simp only []
        rw [hp']
        exact ⟨_, rfl, hcards⟩
      next =>
        rw [get_player_eq_find?]
        simp only []
        rw [hp']
        exact ⟨_, rfl, hcards⟩
    · split <;> rfl
    · split <;> rfl
  · have hres : g.finish_play players1 round2 card =
        ({ g with
            players := players1
            current_round := round2
            current_turn_index := (g.current_turn_index + 1) % g.players.length },
         Except.ok card) := by
      unfold Game.finish_play
      rw [if_neg hcomp]
    rw [hres]
    refine ⟨rfl, ?_, fun _ => ⟨rfl, rfl⟩, fun hc => absurd hc hcomp⟩
    intro v p1 hfind
    exact ⟨p1, hfind, rfl⟩


/-- `C6`: a legal play by the player on turn succeeds, removes the played
card from the acting player's hand, and records it in the current trick;
a non-trick-ending play advances the turn exactly one seat (mod 4), and a
trick-ending play records the winner in the stored round and jumps the
turn to the winner's position in the turn order. -/
theorem C6_play_effects (g : Game) (uid i : Nat) (player : Player) (card : Card)
    (hlen4 : g.players.length = 4)
    (hstate : g.state = "playing")
    (hcur : g.turn_order[g.current_turn_index]? = some uid)
    (hp : g.get_player uid = some player)
    (hcard : player.cards[i]? = some card)
    (hlegal : g.can_play_card player card = true)
    (hfresh : ∀ q ∈ g.current_round.cards_played, q.1 ≠ uid)
    (hkeys : ∀ q ∈ g.current_round.cards_played, q.1 ∈ g.turn_order)
    (hstart : g.current_round.starting_player_id =
      g.current_round.cards_played.head?.map Prod.fst) :
    (g.play_card uid i).2 = Except.ok card ∧
    (∃ p', (g.play_card uid i).1.get_player uid = some p' ∧
      p'.cards = player.cards.eraseIdx i) ∧
    (g.current_round.cards_played.length + 1 ≠ 4 →
      (g.play_card uid i).1.current_turn_index = (g.current_turn_index + 1) % 4 ∧
      (uid, card) ∈ (g.play_card uid i).1.current_round.cards_played) ∧
    (g.current_round.cards_played.length + 1 = 4 →
      ∃ w wi rnd,
        (g.play_card uid i).1.rounds = g.rounds ++ [rnd] ∧
        rnd.winner_id = some w ∧ (uid, card) ∈ rnd.cards_played ∧
        g.turn_order.findIdx? (fun x => x == w) = some wi ∧
        (g.play_card uid i).1.current_turn_index = wi) := by
  have hnotle : ¬ player.cards.length ≤ i := by
    obtain ⟨hh, -⟩ := List.getElem?_eq_some.mp hcard
    omega
  have huidmem : uid ∈ g.turn_order := List.getElem?_mem hcur
  have hpuid : player.user_id = uid := by
    have h := List.find?_some hp
    simpa using h
  have hfind0 : g.players.find? (fun p => p.user_id == uid) = some player := hp
  have hfind1 : (setFirst (fun p => p.user_id == uid)
      { player with cards := player.cards.eraseIdx i } g.players).find?
        (fun p => p.user_id == uid) =
      some { player with cards := player.cards.eraseIdx i } :=
    find?_setFirst_self _ _ player _ hfind0 (by simp [hpuid])
  have hred : g.play_card uid i =
      g.finish_play
        (setFirst (fun p => p.user_id == uid)
          { player with cards := player.cards.eraseIdx i } g.players)
        { (if g.current_round.cards_played.isEmpty then
            { g.current_round with starting_player_id := some uid }
          else g.current_round) with
          cards_played := dictInsert
            (if g.current_round.cards_played.isEmpty then
              { g.current_round with starting_player_id := some uid }
            else g.current_round).cards_played uid card }
        card := by
    unfold Game.play_card
    simp only [hstate, hcur, hp, hcard, hnotle, hlegal]
    rfl
  rw [hred]
  by_cases hemp : g.current_round.cards_played.isEmpty = true
  · have hnil := List.isEmpty_iff.mp hemp
    rw [if_pos hemp]
    obtain ⟨hok, hgp, hnc, hco⟩ := finish_play_spec g
      (setFirst (fun p => p.user_id == uid)
        { player with cards := player.cards.eraseIdx i } g.players)
      { { g.current_round with starting_player_id := some uid } with
        cards_played := dictInsert
          { g.current_round with
            starting_player_id := some uid }.cards_played uid card }
      card uid card []
      (by simp only []; rw [hnil]; rfl)
      rfl
      (by
        intro q hq
        simp only [] at hq
        rw [hnil] at hq
        rcases dictInsert_keys [] uid card q hq with h1 | h1
        · rw [h1]; exact huidmem
        · simp at h1)
    have hic : ¬ ({ { g.current_round with starting_player_id := some uid } with
        cards_played := dictInsert
          { g.current_round with
            starting_player_id := some uid }.cards_played uid card } : Round
        ).is_complete g.players.length = true := by
      unfold Round.is_complete
      simp only [hlen4]
      rw [hnil]
      simp [dictInsert]
    refine ⟨hok, ?_, ?_, ?_⟩
    · obtain ⟨p', hgp', hcards⟩ := hgp uid _ hfind1
      exact ⟨p', hgp', hcards⟩
    · intro h4
      obtain ⟨hcr, hidx⟩ := hnc hic
      rw [hcr, hidx, hlen4]
      refine ⟨rfl, ?_⟩
      simp only []
      rw [hnil]
      exact List.mem_singleton.mpr rfl
    · intro h4
      rw [hnil] at h4
      simp at h4
  · rw [if_neg hemp]
    have hne : g.current_round.cards_played ≠ [] := by
      intro hx
      rw [hx] at hemp
      exact hemp rfl
    obtain ⟨a, rest0, hcons⟩ := List.exists_cons_of_ne_nil hne
    obtain ⟨f0, c0⟩ := a
    have hins : dictInsert g.current_round.cards_played uid card =
        g.current_round.cards_played ++ [(uid, card)] :=
      dictInsert_of_fresh _ _ _ hfresh
    obtain ⟨hok, hgp, hnc, hco⟩ := finish_play_spec g
      (setFirst (fun p => p.user_id == uid)
        { player with cards := player.cards.eraseIdx i } g.players)
      { g.current_round with
        cards_played := dictInsert g.current_round.cards_played uid card }
      card f0 c0 (rest0 ++ [(uid, card)])
      (by simp only []; rw [hins, hcons]; rfl)
      (by simp only []; rw [hstart, hcons]; rfl)
      (by
        intro q hq
        simp only [] at hq
        rcases dictInsert_keys _ uid card q hq with h1 | h1
        · rw [h1]; exact huidmem
        · exact hkeys q h1)
    have hlen2 : (dictInsert g.current_round.cards_played uid card).length =
        g.current_round.cards_played.length + 1 := by
      rw [hins, List.length_append]
      rfl
    refine ⟨hok, ?_, ?_, ?_⟩
    · obtain ⟨p', hgp', hcards⟩ := hgp uid _ hfind1
      exact ⟨p', hgp', hcards⟩
    · intro h4
      have hic : ¬ ({ g.current_round with
          cards_played := dictInsert g.current_round.cards_played uid card } : Round
          ).is_complete g.players.length = true := by
        unfold Round.is_complete
        simp only [hlen4, hlen2]
        simpa using h4
      obtain ⟨hcr, hidx⟩ := hnc hic
      rw [hcr, hidx, hlen4]
      refine ⟨rfl, ?_⟩
      simp only []
      rw [hins]
      exact List.mem_append_right _ (List.mem_singleton.mpr rfl)
    · intro h4
      have hic : ({ g.current_round with
          cards_played := dictInsert g.current_round.cards_played uid card } : Round
          ).is_complete g.players.length = true := by
        unfold Round.is_complete
        simp only [hlen4, hlen2]
        simpa using h4
      obtain ⟨w, wi, hwi, hidx, hrounds⟩ := hco hic
      refine ⟨w, wi, _, hrounds, rfl, ?_, hwi, hidx⟩
      simp only []
      rw [hins]
      exact List.mem_append_right _ (List.mem_singleton.mpr rfl)

/-- Player 1's state right after the `simDeck` deal: all 13 spades. -/
def simPlayer1 : Player :=
  { user_id := 1
    cards := RANK_VALUES.map (fun v => { suit := Suit.spades, value := v })
    tricks_won := 0
    score := 0
    verified := true }

/-- Witness for `C6_play_effects`: player 1 leads ♠2 in the first trick of
the simulated session. -/
theorem C6_play_effects_witness :
    ((simGame 0).play_card 1 0).2 =
      Except.ok { suit := Suit.spades, value := 2 } ∧
    (∃ p', ((simGame 0).play_card 1 0).1.get_player 1 = some p' ∧
      p'.cards = simPlayer1.cards.eraseIdx 0) ∧
    ((simGame 0).current_round.cards_played.length + 1 ≠ 4 →
      ((simGame 0).play_card 1 0).1.current_turn_index =
        ((simGame 0).current_turn_index + 1) % 4 ∧
      (1, ({ suit := Suit.spades, value := 2 } : Card)) ∈
        ((simGame 0).play_card 1 0).1.current_round.cards_played) ∧
    ((simGame 0).current_round.cards_played.length + 1 = 4 →
      ∃ w wi rnd,
        ((simGame 0).play_card 1 0).1.rounds = (simGame 0).rounds ++ [rnd] ∧
        rnd.winner_id = some w ∧
        (1, ({ suit := Suit.spades, value := 2 } : Card)) ∈ rnd.cards_played ∧
        (simGame 0).turn_order.findIdx? (fun x => x == w) = some wi ∧
        ((simGame 0).play_card 1 0).1.current_turn_index = wi) :=
  C6_play_effects (simGame 0) 1 0 simPlayer1 { suit := Suit.spades, value := 2 }
    (by decide) (by decide) (by decide) (by decide) (by decide) (by decide)
    (by decide) (by decide) (by decide)

/-! ## Follow-suit legality (claim C2) -/

/-- `C2`: once a trick has a led card, a card is legal iff it follows the
led suit or the player holds no led-suit card; a play is accepted exactly
when it is legal, and a player who holds the led suit but plays another
suit is rejected, without mutation, by a suit-violation error carrying
exactly the currently-legal cards (the led-suit cards in hand). -/
theorem C2_follow_suit (g : Game) (uid i : Nat) (player : Player) (card : Card)
    (q0 : Nat) (c0 : Card) (rest : List (Nat × Card))
    (hplays : g.current_round.cards_played = (q0, c0) :: rest)
    (hstate : g.state = "playing")
    (hcur : g.turn_order[g.current_turn_index]? = some uid)
    (hp : g.get_player uid = some player)
    (hcard : player.cards[i]? = some card)
    (hfresh : ∀ q ∈ g.current_round.cards_played, q.1 ≠ uid)
    (hkeys : ∀ q ∈ g.current_round.cards_played, q.1 ∈ g.turn_order)
    (hstart : g.current_round.starting_player_id =
      g.current_round.cards_played.head?.map Prod.fst) :
    (g.can_play_card player card = true ↔
      (card.suit = c0.suit ∨ ∀ x ∈ player.cards, x.suit ≠ c0.suit)) ∧
    ((∃ c', (g.play_card uid i).2 = Except.ok c') ↔
      (card.suit = c0.suit ∨ ∀ x ∈ player.cards, x.suit ≠ c0.suit)) ∧
    (card.suit ≠ c0.suit → (∃ x ∈ player.cards, x.suit = c0.suit) →
      g.play_card uid i =
        (g, Except.error (PlayErr.suitViolation
          (player.cards.filter (fun x => x.suit == c0.suit))))) := by
  have hnotle : ¬ player.cards.length ≤ i := by
    obtain ⟨hh, -⟩ := List.getElem?_eq_some.mp hcard
    omega
  have huidmem : uid ∈ g.turn_order := List.getElem?_mem hcur
  have hcp : ∀ c : Card, g.can_play_card player c =
      (if c.suit = c0.suit then true
       else if player.cards.any (fun x => x.suit == c0.suit) then false
       else true) := by
    intro c
    unfold Game.can_play_card
    rw [hplays]
  have hcaniff : g.can_play_card player card = true ↔
      (card.suit = c0.suit ∨ ∀ x ∈ player.cards, x.suit ≠ c0.suit) := by
    rw [hcp]
    by_cases h1 : card.suit = c0.suit
    · simp [h1]
    · rw [if_neg h1]
      by_cases h2 : player.cards.any (fun x => x.suit == c0.suit) = true
      · rw [if_pos h2]
        simp only [List.any_eq_true] at h2
        obtain ⟨x, hxmem, hxs⟩ := h2
        constructor
        · intro hh; simp at hh
        · intro hh
          rcases hh with hh | hh
          · exact absurd hh h1
          · exact absurd (by simpa using hxs) (hh x hxmem)
      · rw [if_neg h2]
        simp only [List.any_eq_true] at h2
        push_neg at h2
        constructor
        · intro _
          right
          intro x hxmem hxs
          exact absurd (by simp [hxs]) (h2 x hxmem)
        · intro _; rfl
  have hviol : card.suit ≠ c0.suit → (∃ x ∈ player.cards, x.suit = c0.suit) →
      g.play_card uid i =
        (g, Except.error (PlayErr.suitViolation
          (player.cards.filter (fun x => x.suit == c0.suit)))) := by
    intro hns hx
    obtain ⟨x, hxmem, hxs⟩ := hx
    have hanyT : player.cards.any (fun x => x.suit == c0.suit) = true := by
      rw [List.any_eq_true]
      exact ⟨x, hxmem, by simp [hxs]⟩
    have hcpf : g.can_play_card player card = false := by
      rw [hcp, if_neg hns, if_pos hanyT]
    have hfilter : player.cards.filter (fun c => g.can_play_card player c) =
        player.cards.filter (fun x => x.suit == c0.suit) := by
      apply List.filter_congr
      intro y hy
      rw [hcp y]
      by_cases hys : y.suit = c0.suit
      · rw [if_pos hys]
        simp [hys]
      · rw [if_neg hys, if_pos hanyT]
        simp [hys]
    have hne2 : ¬ (player.cards.filter
        (fun x => x.suit == c0.suit)).isEmpty = true := by
      rw [List.isEmpty_iff]
      apply List.ne_nil_of_mem
      rw [List.mem_filter]
      exact ⟨hxmem, by simp [hxs]⟩
    unfold Game.play_card
    simp only [hstate, hcur, hp, hcard, hnotle, hcpf]
    rw [hfilter]
    simp only [hne2]
    simp
  refine ⟨hcaniff, ⟨?_, ?_⟩, hviol⟩
  · rintro ⟨c', hc'⟩
    by_contra hcond
    push_neg at hcond
    obtain ⟨hns, hhold⟩ := hcond
    rw [hviol hns hhold] at hc'
    simp at hc'
  · intro hcond
    have hlegal : g.can_play_card player card = true := hcaniff.mpr hcond
    have hred : g.play_card uid i =
        g.finish_play
          (setFirst (fun p => p.user_id == uid)
            { player with cards := player.cards.eraseIdx i } g.players)
          { (if g.current_round.cards_played.isEmpty then
              { g.current_round with starting_player_id := some uid }
            else g.current_round) with
            cards_played := dictInsert
              (if g.current_round.cards_played.isEmpty then
                { g.current_round with starting_player_id := some uid }
              else g.current_round).cards_played uid card }
          card := by
      unfold Game.play_card
      simp only [hstate, hcur, hp, hcard, hnotle, hlegal]
      rfl
    have hemp : ¬ g.current_round.cards_played.isEmpty = true := by
      rw [hplays]
      simp
    rw [hred, if_neg hemp]
    obtain ⟨g', heq⟩ := finish_play_ok g
      (setFirst (fun p => p.user_id == uid)
        { player with cards := player.cards.eraseIdx i } g.players)
      { g.current_round with
        cards_played := dictInsert g.current_round.cards_played uid card }
      card q0 c0 (rest ++ [(uid, card)])
      (by
        simp only []
        rw [dictInsert_of_fresh _ _ _ hfresh, hplays]
        rfl)
      (by
        simp only []
        rw [hstart, hplays]
        rfl)
      (by
        intro q hq
        simp only [] at hq
        rcases dictInsert_keys _ uid card q hq with h1 | h1
        · rw [h1]; exact huidmem
        · exact hkeys q h1)
    rw [heq]
    exact ⟨card, rfl⟩

/-- Player 2's state right after the `simDeck` deal: all 13 hearts. -/
def simPlayer2 : Player :=
  { user_id := 2
    cards := RANK_VALUES.map (fun v => { suit := Suit.hearts, value := v })
    tricks_won := 0
    score := 0
    verified := true }

/-- Witness for `C2_follow_suit`: player 2, holding no spades, follows a
♠2 lead with ♥2. -/
theorem C2_follow_suit_witness :
    ((playSeq (simGame 0) [(1, 0)]).can_play_card simPlayer2
        { suit := Suit.hearts, value := 2 } = true ↔
      (Suit.hearts = Suit.spades ∨
        ∀ x ∈ simPlayer2.cards, x.suit ≠ Suit.spades)) ∧
    ((∃ c', ((playSeq (simGame 0) [(1, 0)]).play_card 2 0).2 = Except.ok c') ↔
      (Suit.hearts = Suit.spades ∨
        ∀ x ∈ simPlayer2.cards, x.suit ≠ Suit.spades)) ∧
    (Suit.hearts ≠ Suit.spades →
      (∃ x ∈ simPlayer2.cards, x.suit = Suit.spades) →
      (playSeq (simGame 0) [(1, 0)]).play_card 2 0 =
        (playSeq (simGame 0) [(1, 0)], Except.error (PlayErr.suitViolation
          (simPlayer2.cards.filter (fun x => x.suit == Suit.spades))))) :=
  C2_follow_suit (playSeq (simGame 0) [(1, 0)]) 2 0 simPlayer2
    { suit := Suit.hearts, value := 2 } 1 { suit := Suit.spades, value := 2 } []
    (by decide) (by decide) (by decide) (by decide) (by decide)
    (by decide) (by decide) (by decide)

/-! ## The trick-winner order (claim C1) -/

/-- The trick order exactly as the specification words it (`specBeats t l c d`
means `c` beats `d` under trump `t` and led suit `l`): a trump-suit card
beats any non-trump card; between trump cards the higher rank wins; a
led-suit card beats any other non-trump card; between led-suit cards the
higher rank wins; a card that is neither trump nor led suit beats nothing. -/
def specBeats (trump leading : Suit) (c d : Card) : Bool :=
  if c.suit = trump then
    if d.suit = trump then decide (d.value < c.value) else true
  else if d.suit = trump then false
  else if c.suit = leading then
    if d.suit = leading then decide (d.value < c.value) else true
  else false

/-- Strength tier of a card: trump 2, led suit 1, anything else 0. -/
def cardTier (trump leading : Suit) (c : Card) : Nat :=
  if c.suit = trump then 2 else if c.suit = leading then 1 else 0

theorem specBeats_iff (t l : Suit) (c d : Card) :
    specBeats t l c d = true ↔
      (cardTier t l d < cardTier t l c ∨
        (cardTier t l c = cardTier t l d ∧ 0 < cardTier t l c ∧
          d.value < c.value)) := by
  unfold specBeats cardTier
  split_ifs <;> simp_all

theorem specBeats_trans (t l : Suit) (a b c : Card)
    (h1 : specBeats t l a b = true) (h2 : specBeats t l b c = true) :
    specBeats t l a c = true := by
  rw [specBeats_iff] at h1 h2 ⊢
  omega

theorem Card.eq_of (c d : Card) (hs : c.suit = d.suit)
    (hv : c.value = d.value) : c = d := by
  cases c
  cases d
  simp_all

theorem pickWinner_self (t : Option Suit) (l : Suit) (w : Nat × Card) :
    pickWinner t l w w = w := by
  unfold pickWinner
  split_ifs <;> rfl

theorem pickWinner_inv (t l : Suit) (win pc : Nat × Card)
    (hinv : win.2.suit = t ∨ win.2.suit = l) :
    (pickWinner (some t) l win pc).2.suit = t ∨
      (pickWinner (some t) l win pc).2.suit = l := by
  unfold pickWinner
  split_ifs with h1 h2 h3 h4 h5 h6 <;> simp_all

theorem pickWinner_beats (t l : Suit) (win pc : Nat × Card)
    (hinv : win.2.suit = t ∨ win.2.suit = l)
    (hne : win.2 ≠ pc.2) :
    (pickWinner (some t) l win pc = win ∧
      specBeats t l win.2 pc.2 = true) ∨
    (pickWinner (some t) l win pc = pc ∧
      specBeats t l pc.2 win.2 = true) := by
  have hval : win.2.suit = pc.2.suit → win.2.value ≠ pc.2.value :=
    fun hs hv => absurd (Card.eq_of _ _ hs hv) hne
  unfold pickWinner specBeats
  by_cases h1 : pc.2.suit = t <;> by_cases h2 : win.2.suit = t
  · have hv := hval (h2.trans h1.symm)
    by_cases h5 : win.2.value < pc.2.value <;>
      simp [h1, h2, h5] <;> omega
  · simp [h1, h2]
  · simp [h1, h2]
    intro ha hb
    exact absurd (ha.trans hb.symm) h1
  · have hwl : win.2.suit = l := hinv.resolve_left h2
    by_cases h3 : pc.2.suit = l
    · have hv := hval (hwl.trans h3.symm)
      have hlt : ¬ l = t := fun hh => h1 (h3.trans hh)
      by_cases h5 : win.2.value < pc.2.value
      · simp [h1, h2, h3, hwl, h5, hlt]
      · simp [h1, h2, h3, hwl, h5, hlt]
        omega
    · simp [h1, h2, h3, hwl]

theorem foldl_pickWinner_spec (t l : Suit) :
    ∀ (xs : List (Nat × Card)) (w0 : Nat × Card),
      (w0.2.suit = t ∨ w0.2.suit = l) →
      (∀ x ∈ xs, x.2 ≠ w0.2) →
      xs.Pairwise (fun a b => a.2 ≠ b.2) →
      (xs.foldl (pickWinner (some t) l) w0 = w0 ∨
        xs.foldl (pickWinner (some t) l) w0 ∈ xs) ∧
      (∀ x ∈ xs, x.2 ≠ (xs.foldl (pickWinner (some t) l) w0).2 →
        specBeats t l (xs.foldl (pickWinner (some t) l) w0).2 x.2 = true) ∧
      ((xs.foldl (pickWinner (some t) l) w0).2 ≠ w0.2 →
        specBeats t l (xs.foldl (pickWinner (some t) l) w0).2 w0.2 = true) := by
  intro xs
  induction xs with
  | nil =>
    intro w0 hinv hdw hpw
    exact ⟨Or.inl rfl, fun x hx => absurd hx (List.not_mem_nil x),
      fun hne => absurd rfl hne⟩
  | cons x xs ih =>
    intro w0 hinv hdw hpw
    rw [List.foldl_cons]
    have hnex : w0.2 ≠ x.2 := (hdw x (List.mem_cons_self x xs)).symm
    obtain ⟨hhead, htail⟩ := List.pairwise_cons.mp hpw
    rcases pickWinner_beats t l w0 x hinv hnex with ⟨hkeep, hbwx⟩ | ⟨htake, hbxw⟩
    · rw [hkeep]
      obtain ⟨hmem, hbeats, hbw0⟩ :=
        ih w0 hinv (fun y hy => hdw y (List.mem_cons_of_mem x hy)) htail
      refine ⟨?_, ?_, hbw0⟩
      · rcases hmem with h | h
        · exact Or.inl h
        · exact Or.inr (List.mem_cons_of_mem x h)
      · intro y hy hyne
        rcases List.mem_cons.mp hy with rfl | hyxs
        · by_cases hrw : (List.foldl (pickWinner (some t) l) w0 xs).2 = w0.2
          · rw [hrw]
            exact hbwx
          · exact specBeats_trans t l _ _ _ (hbw0 hrw) hbwx
        · exact hbeats y hyxs hyne
    · rw [htake]
      have hinvx : x.2.suit = t ∨ x.2.suit = l := by
        have h := pickWinner_inv t l w0 x hinv
        rw [htake] at h
        exact h
      obtain ⟨hmem, hbeats, hbx⟩ :=
        ih x hinvx (fun y hy => (hhead y hy).symm) htail
      refine ⟨?_, ?_, ?_⟩
      · rcases hmem with h | h
        · exact Or.inr (by rw [h]; exact List.mem_cons_self x xs)
        · exact Or.inr (List.mem_cons_of_mem x h)
      · intro y hy hyne
        rcases List.mem_cons.mp hy with rfl | hyxs
        · exact hbx (fun hh => hyne hh.symm)
        · exact hbeats y hyxs hyne
      · intro hne0
        by_cases hrx : (List.foldl (pickWinner (some t) l) x xs).2 = x.2
        · rw [hrx]
          exact hbxw
        · exact specBeats_trans t l _ _ _ (hbx hrx) hbxw

/-- Spec example 1: led ♦, trump ♠, plays ♦5, ♣9, ♦Q, ♦2 (players 1–4). -/
def exG1 : Game :=
  { gWaiting with
    state := "playing"
    trump_suit := some Suit.spades
    turn_order := [1, 2, 3, 4]
    current_round :=
      { cards_played := [(1, { suit := Suit.diamonds, value := 5 }),
          (2, { suit := Suit.clubs, value := 9 }),
          (3, { suit := Suit.diamonds, value := 12 }),
          (4, { suit := Suit.diamonds, value := 2 })]
        starting_player_id := some 1
        winner_id := none } }

/-- Spec example 2: led ♥, trump ♠, plays ♥10, ♠2, ♥K, ♥A (players 1–4). -/
def exG2 : Game :=
  { gWaiting with
    state := "playing"
    trump_suit := some Suit.spades
    turn_order := [1, 2, 3, 4]
    current_round :=
      { cards_played := [(1, { suit := Suit.hearts, value := 10 }),
          (2, { suit := Suit.spades, value := 2 }),
          (3, { suit := Suit.hearts, value := 13 }),
          (4, { suit := Suit.hearts, value := 14 })]
        starting_player_id := some 1
        winner_id := none } }

/-- `C1`: in a complete four-card trick (with pairwise-distinct cards, as
dealt from one deck) `get_round_winner` names a player whose played card
beats every other played card under the specification's order `specBeats`
(trump beats non-trump, trump vs trump and led vs led by rank, a card that
is neither trump nor led never wins); in particular the holder of ♦Q wins
the first spec example and the holder of ♠2 the second. -/
theorem C1_trick_winner :
    (∀ (g : Game) (t : Suit) (fid : Nat) (c0 : Card) (rest : List (Nat × Card)),
      g.trump_suit = some t →
      g.current_round.cards_played = (fid, c0) :: rest →
      g.current_round.starting_player_id = some fid →
      ((fid, c0) :: rest).length = 4 →
      ((fid, c0) :: rest).Pairwise (fun a b => a.2 ≠ b.2) →
      ∃ w cw, g.get_round_winner = some w ∧ ((w, cw) ∈ (fid, c0) :: rest) ∧
        ∀ q ∈ (fid, c0) :: rest, q.2 ≠ cw →
          specBeats t c0.suit cw q.2 = true) ∧
    exG1.get_round_winner = some 3 ∧
    exG2.get_round_winner = some 2 := by
  refine ⟨?_, by decide, by decide⟩
  intro g t fid c0 rest htr hplays hstart hlen hdist
  unfold Game.get_round_winner
  rw [hplays, hstart, htr]
  simp only [List.isEmpty_cons, Bool.false_eq_true, if_false, lookup_head]
  rw [List.foldl_cons, pickWinner_self]
  obtain ⟨hhead, htail⟩ := List.pairwise_cons.mp hdist
  obtain ⟨hmem, hbeats, hbw0⟩ :=
    foldl_pickWinner_spec t c0.suit rest (fid, c0) (Or.inr rfl)
      (fun y hy => (hhead y hy).symm) htail
  refine ⟨(List.foldl (pickWinner (some t) c0.suit) (fid, c0) rest).1,
    (List.foldl (pickWinner (some t) c0.suit) (fid, c0) rest).2, rfl, ?_, ?_⟩
  · rcases hmem with h | h
    · rw [h]
      exact List.mem_cons_self _ _
    · exact List.mem_cons_of_mem _ h
  · intro q hq hqne
    rcases List.mem_cons.mp hq with rfl | hqrest
    · exact hbw0 (fun hh => hqne hh.symm)
    · exact hbeats q hqrest hqne

/-- Witness for `C1_trick_winner`: the general statement applied to the
first spec example, where the holder of ♦Q (player 3) wins. -/
theorem C1_trick_winner_witness :
    ∃ w cw, exG1.get_round_winner = some w ∧
      ((w, cw) ∈ ((1, ({ suit := Suit.diamonds, value := 5 } : Card)) ::
        [(2, { suit := Suit.clubs, value := 9 }),
         (3, { suit := Suit.diamonds, value := 12 }),
         (4, { suit := Suit.diamonds, value := 2 })])) ∧
      ∀ q ∈ ((1, ({ suit := Suit.diamonds, value := 5 } : Card)) ::
        [(2, { suit := Suit.clubs, value := 9 }),
         (3, { suit := Suit.diamonds, value := 12 }),
         (4, { suit := Suit.diamonds, value := 2 })]),
        q.2 ≠ cw → specBeats Suit.spades Suit.diamonds cw q.2 = true :=
  C1_trick_winner.1 exG1 Suit.spades 1 { suit := Suit.diamonds, value := 5 }
    [(2, { suit := Suit.clubs, value := 9 }),
     (3, { suit := Suit.diamonds, value := 12 }),
     (4, { suit := Suit.diamonds, value := 2 })]
    (by decide) (by decide) (by decide) (by decide) (by decide)
